import Mathlib

/-!
Shallow embedding of the elfmalloc general-allocator front end
(`elfmalloc/src/general.rs`) and of the blanket `ObjectAlloc` implementation
(`object_alloc/src/lib.rs`), with theorems settling the frozen claims.

Pointers are modelled as natural-number addresses.  The `usize` arithmetic
involved cannot overflow at the sizes the allocator handles, so it is modelled
on `Nat`; the one place where wrap-around of `p - 1` would matter (a null
pointer) is excluded by a `0 < item` hypothesis.  Memory contents that the
code reads — the tag byte at the base of a 2 MiB region, slab metadata, the
large-allocation header — are modelled as explicit lookup functions passed to
the embedded operations.
-/

/-- Constant ELFMALLOC_PAGE_SIZE from general.rs: `2 << 20` = 2 MiB. -/
def ELFMALLOC_PAGE_SIZE : Nat := 2097152

/-- Constant ELFMALLOC_SMALL_PAGE_SIZE from general.rs: `256 << 10` = 256 KiB. -/
def ELFMALLOC_SMALL_PAGE_SIZE : Nat := 262144

/-- Constant ELFMALLOC_SMALL_CUTOFF from general.rs:
`ELFMALLOC_SMALL_PAGE_SIZE / 4` = 64 KiB. -/
def ELFMALLOC_SMALL_CUTOFF : Nat := ELFMALLOC_SMALL_PAGE_SIZE / 4

/-- Constant MULTIPLE from general.rs: the step of the small size-class tier. -/
def MULTIPLE : Nat := 16

/-- Value of `mem::size_of::<usize>()` on the 64-bit targets the crate
supports. -/
def WORD_SIZE : Nat := 8

/-- Enum AllocType from elfmalloc's alloc_type module (declared outside
general.rs but fully determined by its use there): the one-byte tag stamped at
the base of every 2 MiB region.  The spec names the variants SmallSlab /
LargeSlab / DirectMap. -/
inductive AllocType
  | SmallSlag
  | BigSlag
  | Large
  deriving DecidableEq, Repr

/-- Function round_to_page from general.rs:
`(item as usize) & !(ELFMALLOC_PAGE_SIZE - 1)`.  For the power-of-two page
size the mask is truncation to a multiple of the page size. -/
def round_to_page (item : Nat) : Nat := item / ELFMALLOC_PAGE_SIZE * ELFMALLOC_PAGE_SIZE

/-- Function get_type from general.rs: read the AllocType tag at
`round_to_page(item - 1)`.  The tag byte stored at each address is modelled by
the lookup `tagAt`. -/
def get_type (tagAt : Nat → AllocType) (item : Nat) : AllocType :=
  tagAt (round_to_page (item - 1))

/-- Function round_up from general.rs: `(n + (MULTIPLE - 1)) & !(MULTIPLE - 1)`,
the least multiple of 16 that is at least `n`. -/
def round_up (n : Nat) : Nat := (n + (MULTIPLE - 1)) / MULTIPLE * MULTIPLE

/-- Fuelled loop of Rust's `usize::next_power_of_two`: double `power` until it
reaches `n`. -/
def nextPow2Go (n : Nat) : Nat → Nat → Nat
  | power, 0 => power
  | power, fuel + 1 => if power < n then nextPow2Go n (power * 2) fuel else power

/-- Model of Rust's `usize::next_power_of_two`: the least power of two that is
at least `max n 1`.  Fuel `n` suffices because doubling from 1 passes `n`
within `n` steps. -/
def nextPow2 (n : Nat) : Nat := nextPow2Go n 1 n

/-- Fuelled loop for counting trailing zero bits. -/
def ctzGo : Nat → Nat → Nat
  | 0, _ => 0
  | fuel + 1, n => if n % 2 = 0 ∧ n ≠ 0 then ctzGo fuel (n / 2) + 1 else 0

/-- Model of Rust's `trailing_zeros` on positive inputs (general.rs only
applies it to powers of two). -/
def trailing_zeros (n : Nat) : Nat := ctzGo n n

/-- Shape data of struct Multiples from general.rs: `starting_size`,
`max_size`, and the length of the `classes` array. -/
structure Multiples where
  starting_size : Nat
  max_size : Nat
  numClasses : Nat
  deriving DecidableEq, Repr

/-- Shape computed by Multiples::init_conserve: `starting_size = round_up(start)`
and `max_size = n_classes * MULTIPLE + starting_size - MULTIPLE`. -/
def Multiples.init (start n_classes : Nat) : Multiples :=
  { starting_size := round_up start
    max_size := n_classes * MULTIPLE + round_up start - MULTIPLE
    numClasses := n_classes }

/-- Sizes passed to the constructor `f` by Multiples::init_conserve, in call
order: `starting_size, starting_size + 16, ...`, one call per class. -/
def Multiples.initCallSizes (start n_classes : Nat) : List Nat :=
  (List.range n_classes).map (fun i => round_up start + MULTIPLE * i)

/-- Size class stored at index `i` of the `classes` array: the size its
constructor received in the init_conserve loop. -/
def Multiples.classSize (m : Multiples) (i : Nat) : Nat := m.starting_size + MULTIPLE * i

/-- Index computed by Multiples::get_raw:
`(round_up(n) - starting_size) / MULTIPLE`. -/
def Multiples.get_raw_index (m : Multiples) (n : Nat) : Nat :=
  (round_up n - m.starting_size) / MULTIPLE

/-- Shape data of struct PowersOfTwo from general.rs. -/
structure PowersOfTwo where
  starting_size : Nat
  max_size : Nat
  numClasses : Nat
  deriving DecidableEq, Repr

/-- Shape computed by PowersOfTwo::init_conserve: `PowersOfTwo::new` sets
`starting_size = start.next_power_of_two()`; the loop doubles `cur` once per
class, and afterwards `max_size = cur / 2`. -/
def PowersOfTwo.init (start n_classes : Nat) : PowersOfTwo :=
  { starting_size := nextPow2 start
    max_size := nextPow2 start * 2 ^ n_classes / 2
    numClasses := n_classes }

/-- Sizes passed to the constructor by PowersOfTwo::init_conserve, in call
order: `starting_size, 2 * starting_size, ...`. -/
def PowersOfTwo.initCallSizes (start n_classes : Nat) : List Nat :=
  (List.range n_classes).map (fun i => nextPow2 start * 2 ^ i)

/-- Size class stored at index `i` of the `classes` array. -/
def PowersOfTwo.classSize (p : PowersOfTwo) (i : Nat) : Nat := p.starting_size * 2 ^ i

/-- Index computed by PowersOfTwo::get_raw:
`k.next_power_of_two().trailing_zeros() - starting_size.trailing_zeros()`. -/
def PowersOfTwo.get_raw_index (p : PowersOfTwo) (k : Nat) : Nat :=
  trailing_zeros (nextPow2 k) - trailing_zeros p.starting_size

/-- Shape of struct TieredSizeClasses in the default configuration, in which
the distinguished 8-byte `word_objs` class is present. -/
structure TieredSizeClasses where
  small : Multiples
  medium : PowersOfTwo
  deriving DecidableEq, Repr

/-- Class-count split and sub-map construction of
TieredSizeClasses::init_conserve:
`n_small_classes = min(SMALL_CUTOFF / MULTIPLE - start / MULTIPLE, n_classes / 2)`,
the Multiples sub-map takes those, and the PowersOfTwo sub-map starts one past
the Multiples maximum with the remaining classes. -/
def TieredSizeClasses.init (start n_classes : Nat) : TieredSizeClasses :=
  let n_small_classes := min (ELFMALLOC_SMALL_CUTOFF / MULTIPLE - start / MULTIPLE) (n_classes / 2)
  let small_classes := Multiples.init start n_small_classes
  { small := small_classes
    medium := PowersOfTwo.init (small_classes.max_size + 1) (n_classes - n_small_classes) }

/-- First `n_classes` constructor calls made by TieredSizeClasses::init_conserve,
in order: all Multiples calls, then all PowersOfTwo calls. -/
def TieredSizeClasses.initCallSizesHead (start n_classes : Nat) : List Nat :=
  let n_small_classes := min (ELFMALLOC_SMALL_CUTOFF / MULTIPLE - start / MULTIPLE) (n_classes / 2)
  Multiples.initCallSizes start n_small_classes ++
    PowersOfTwo.initCallSizes ((Multiples.init start n_small_classes).max_size + 1)
      (n_classes - n_small_classes)

/-- All constructor calls of TieredSizeClasses::init_conserve in call order: in
the default configuration the trailing `let word_objs = f3(8)` adds one final
call with size 8 after both sub-maps have been built. -/
def TieredSizeClasses.initCallSizes (start n_classes : Nat) : List Nat :=
  TieredSizeClasses.initCallSizesHead start n_classes ++ [8]

/-- Identifies the slot of the tiered map that a lookup lands in. -/
inductive ClassRef
  | word
  | small (i : Nat)
  | medium (i : Nat)
  deriving DecidableEq, Repr

/-- Dispatch of TieredSizeClasses::get_raw in the default configuration with
the word class: `n ≤ 8` hits `word_objs`, `n ≤ small_objs.max_key()` hits the
Multiples sub-map, everything else the PowersOfTwo sub-map. -/
def TieredSizeClasses.get_raw (t : TieredSizeClasses) (n : Nat) : ClassRef :=
  if n ≤ 8 then ClassRef.word
  else if n ≤ t.small.max_size then ClassRef.small (t.small.get_raw_index n)
  else ClassRef.medium (t.medium.get_raw_index n)

/-- Size class held in a slot of the tiered map: 8 for the word class, and for
the sub-maps the size their constructor received for that index. -/
def TieredSizeClasses.classSizeOf (t : TieredSizeClasses) : ClassRef → Nat
  | ClassRef.word => 8
  | ClassRef.small i => t.small.classSize i
  | ClassRef.medium i => t.medium.classSize i

/-- Function TieredSizeClasses::max_key from general.rs: the medium sub-map's
max_size. -/
def TieredSizeClasses.max_key (t : TieredSizeClasses) : Nat := t.medium.max_size

/-- Shape of the default allocator's size-class map: ElfMalloc::new calls
new_internal with starting size 8 and 25 classes. -/
def defaultSizeClasses : TieredSizeClasses := TieredSizeClasses.init 8 25

/-- Specification-side predicate, written from the spec's words for the
refinement in claim C6: `c` is one of the map's class sizes. -/
def TieredSizeClasses.isClassSize (t : TieredSizeClasses) (c : Nat) : Prop :=
  c = 8 ∨ (∃ i, i < t.small.numClasses ∧ c = t.small.classSize i) ∨
    (∃ i, i < t.medium.numClasses ∧ c = t.medium.classSize i)

/-- Specification-side statement, written from the spec's words for claim C6:
`s` is the smallest class size of the map that is at least `n`. -/
def SmallestClassSpec (t : TieredSizeClasses) (n s : Nat) : Prop :=
  t.isClassSize s ∧ n ≤ s ∧ ∀ c, t.isClassSize c → n ≤ c → s ≤ c

/-- Outcome of ElfMalloc::free's dispatch: hand the pointer to the cache of a
size class, or route it to large_alloc::free. -/
inductive FreeAction
  | cacheFree (object_size : Nat)
  | largeFree
  deriving DecidableEq, Repr

/-- Function ElfMalloc::get_page_size from general.rs: a pointer not aligned to
the small cutoff is a small-slab object (page size 256 KiB), decided without
inspecting the tag; an aligned pointer dispatches on the tag, and tag `Large`
yields `None`. -/
def get_page_size (tagAt : Nat → AllocType) (item : Nat) : Option Nat :=
  if item % ELFMALLOC_SMALL_CUTOFF ≠ 0 then some ELFMALLOC_SMALL_PAGE_SIZE
  else
    match get_type tagAt item with
    | AllocType.SmallSlag => some ELFMALLOC_SMALL_PAGE_SIZE
    | AllocType.BigSlag => some ELFMALLOC_PAGE_SIZE
    | AllocType.Large => none

/-- Modelled from the spec: `Slag::find(ptr, page_size)` — the slab code is
outside the two source files — returns the slab header that owns `ptr`,
located at a fixed offset from `align_down(ptr, page_size)`; its address is
modelled as that aligned-down base. -/
def slag_find (item page_size : Nat) : Nat := item - item % page_size

/-- Function ElfMalloc::free from general.rs: obtain a page size, locate the
enclosing slab, and free into the cache for the slab's recorded object size;
a `None` page size (tag `Large`) routes to large_alloc::free.  Slab metadata
is modelled by the lookup `objectSizeAt`. -/
def elf_free (tagAt : Nat → AllocType) (objectSizeAt : Nat → Nat) (item : Nat) : FreeAction :=
  match get_page_size tagAt item with
  | some page_size => FreeAction.cacheFree (objectSizeAt (slag_find item page_size))
  | none => FreeAction.largeFree

/-- Outcome of ElfMalloc::realloc, as a decision. -/
inductive ReallocAction
  | allocNew (size : Nat)
  | freeNull
  | keep
  | reallocate (alloc_size copy_len : Nat)
  deriving DecidableEq, Repr

/-- Function ElfMalloc::realloc from general.rs as a decision function;
`layout_of` models global::get_layout, which the code consults only when
`item` is non-null.  Branches in source order: null item, `new_size == 0`,
the keep check, then reallocate (with `new_size` promoted to a power of two
when `new_alignment` exceeds the word size) copying
`min(old_size, new_size)` bytes. -/
def realloc_decision (layout_of : Nat → Nat × Nat) (item : Option Nat)
    (new_size new_alignment : Nat) : ReallocAction :=
  match item with
  | none =>
      ReallocAction.allocNew (if new_alignment ≤ WORD_SIZE then new_size else nextPow2 new_size)
  | some p =>
      if new_size = 0 then ReallocAction.freeNull
      else
        if (layout_of p).2 ≥ new_alignment ∧ (layout_of p).1 ≥ new_size then ReallocAction.keep
        else
          let ns := if new_alignment > WORD_SIZE then nextPow2 new_size else new_size
          ReallocAction.reallocate ns (min (layout_of p).1 ns)

/-- Specification-side function, written from the spec's words for claim C4:
`n` rounded up to the least multiple of `align`. -/
def round_up_to_alignment (n align : Nat) : Nat := (n + align - 1) / align * align

/-- Struct AllocInfo from the large_alloc module of general.rs. -/
structure AllocInfo where
  ty : AllocType
  base : Nat
  region_size : Nat
  deriving DecidableEq, Repr

/-- Function large_alloc::get_commitment_mut from general.rs: the header
address for a user pointer is `round_to_page(item - 1)`. -/
def get_commitment_mut (item : Nat) : Nat := round_to_page (item - 1)

/-- Everything large_alloc::alloc computes for a request, given the base
address the mmap source hands back. -/
structure LargeAllocResult where
  regionSize : Nat
  nPages : Nat
  userPtr : Nat
  headerAddr : Nat
  header : AllocInfo
  deriving DecidableEq, Repr

/-- Function large_alloc::alloc from general.rs:
`region_size = size + ELFMALLOC_PAGE_SIZE`; carve
`region_size / SMALL_CUTOFF + min(1, region_size % SMALL_CUTOFF)` pages from a
SMALL_CUTOFF-aligned MmapSource whose returned base is the parameter `base`;
return `base + ELFMALLOC_PAGE_SIZE`; write the AllocInfo header at
get_commitment_mut of the returned pointer. -/
def large_alloc_model (size base : Nat) : LargeAllocResult :=
  { regionSize := size + ELFMALLOC_PAGE_SIZE
    nPages := (size + ELFMALLOC_PAGE_SIZE) / ELFMALLOC_SMALL_CUTOFF +
      min 1 ((size + ELFMALLOC_PAGE_SIZE) % ELFMALLOC_SMALL_CUTOFF)
    userPtr := base + ELFMALLOC_PAGE_SIZE
    headerAddr := get_commitment_mut (base + ELFMALLOC_PAGE_SIZE)
    header := { ty := AllocType.Large, base := base, region_size := size + ELFMALLOC_PAGE_SIZE } }

/-- Function large_alloc::get_commitment from general.rs: read
`(region_size, base)` out of the AllocInfo at get_commitment_mut(item); header
memory is modelled by the lookup `headerAt`. -/
def get_commitment (headerAt : Nat → AllocInfo) (item : Nat) : Nat × Nat :=
  ((headerAt (get_commitment_mut item)).region_size, (headerAt (get_commitment_mut item)).base)

/-- Outcome of large_alloc::free. -/
inductive LargeFreeAction
  | noop
  | unmap (base size : Nat)
  deriving DecidableEq, Repr

/-- Function large_alloc::free from general.rs: a header reading
`size == 0 && base == null` returns without unmapping; otherwise unmap `size`
bytes starting at `base`. -/
def large_free (headerAt : Nat → AllocInfo) (item : Nat) : LargeFreeAction :=
  if (get_commitment headerAt item).1 = 0 ∧ (get_commitment headerAt item).2 = 0 then
    LargeFreeAction.noop
  else
    LargeFreeAction.unmap (get_commitment headerAt item).2 (get_commitment headerAt item).1

/-- Route taken by the public global::alloc. -/
inductive GlobalAllocRoute
  | localHandle (size : Nat)
  | largeDirect (size : Nat)
  | transientClone (size : Nat)
  deriving DecidableEq, Repr

/-- Function global::alloc from general.rs: run the thread-local handle's alloc
when the TLS slot is usable; otherwise `unwrap_or_else` falls through to
`large_alloc::alloc(size)`, without inspecting `size`. -/
def global_alloc_route (tls_available : Bool) (size : Nat) : GlobalAllocRoute :=
  if tls_available then GlobalAllocRoute.localHandle size
  else GlobalAllocRoute.largeDirect size

/-- Which allocator handle an operation built on global::with_local_or_clone
uses. -/
inductive HandleSource
  | tlsHandle
  | freshClone
  deriving DecidableEq, Repr

/-- Function global::with_local_or_clone from general.rs (the helper behind
aligned_realloc and get_layout): the TLS handle when usable, otherwise a
transient clone of the global instance made through new_handle(). -/
def with_local_or_clone_source (tls_available : Bool) : HandleSource :=
  if tls_available then HandleSource.tlsHandle else HandleSource.freshClone

/-- Data of struct Layout from the old allocator API: size and alignment. -/
structure Layout where
  size : Nat
  align : Nat
  deriving DecidableEq, Repr

/-- Enum AllocErr from the old allocator API, as matched in
object_alloc/src/lib.rs. -/
inductive AllocErr
  | Exhausted (request : Layout)
  | Unsupported (details : String)
  deriving DecidableEq, Repr

/-- Outcome of the blanket `ObjectAlloc<T> for A: Alloc` alloc: success with a
pointer (the `*mut u8 → *mut T` cast keeps the address), the Exhausted error,
or a panic (the AllocErr::Unsupported arm). -/
inductive ObjAllocResult
  | ok (ptr : Nat)
  | exhausted
  | panicked
  deriving DecidableEq, Repr

/-- Match-arm logic of the blanket ObjectAlloc alloc in object_alloc/src/lib.rs. -/
def blanket_alloc (res : Except AllocErr Nat) : ObjAllocResult :=
  match res with
  | Except.ok ptr => ObjAllocResult.ok ptr
  | Except.error (AllocErr.Exhausted _) => ObjAllocResult.exhausted
  | Except.error (AllocErr.Unsupported _) => ObjAllocResult.panicked

/-- Blanket ObjectAlloc alloc: call the underlying Alloc::alloc with
`Layout::new::<T>()` (the parameter `t_layout`) and translate the result. -/
def blanket_alloc_impl (t_layout : Layout) (underlying : Layout → Except AllocErr Nat) :
    ObjAllocResult :=
  blanket_alloc (underlying t_layout)

/-- Blanket ObjectAlloc dealloc: forward the pointer (its address unchanged by
the cast) together with `Layout::new::<T>()` to Alloc::dealloc. -/
def blanket_dealloc_impl (t_layout : Layout) (x : Nat) : Nat × Layout := (x, t_layout)

/-! Helper lemmas about the fuelled models of `next_power_of_two` and
`trailing_zeros`. -/

theorem nextPow2Go_ge (n : Nat) :
    ∀ fuel power, n ≤ power * 2 ^ fuel → n ≤ nextPow2Go n power fuel := by
  intro fuel
  induction fuel with
  | zero =>
    intro power h
    simpa [nextPow2Go] using h
  | succ f ih =>
    intro power h
    by_cases hp : power < n
    · have h2 : n ≤ power * 2 * 2 ^ f := by
        have e : power * 2 ^ (f + 1) = power * 2 * 2 ^ f := by ring
        rw [e] at h
        exact h
      simpa [nextPow2Go, hp] using ih (power * 2) h2
    · simp only [nextPow2Go, if_neg hp]
      omega

theorem nextPow2Go_pow (n : Nat) :
    ∀ fuel power i, power = 2 ^ i → ∃ k, nextPow2Go n power fuel = 2 ^ k := by
  intro fuel
  induction fuel with
  | zero =>
    intro power i hp
    exact ⟨i, by simpa [nextPow2Go] using hp⟩
  | succ f ih =>
    intro power i hp
    by_cases h : power < n
    · have := ih (power * 2) (i + 1) (by rw [hp]; ring)
      simpa [nextPow2Go, h] using this
    · exact ⟨i, by simpa [nextPow2Go, h] using hp⟩

theorem nextPow2Go_le (n : Nat) :
    ∀ fuel power i m, power = 2 ^ i → i ≤ m → n ≤ 2 ^ m →
      nextPow2Go n power fuel ≤ 2 ^ m := by
  intro fuel
  induction fuel with
  | zero =>
    intro power i m hp him hnm
    simp only [nextPow2Go]
    rw [hp]
    exact Nat.pow_le_pow_right (by norm_num) him
  | succ f ih =>
    intro power i m hp him hnm
    by_cases h : power < n
    · have hlt : i < m := by
        by_contra hc
        have hmi : m ≤ i := by omega
        have : (2 : Nat) ^ m ≤ 2 ^ i := Nat.pow_le_pow_right (by norm_num) hmi
        omega
      have := ih (power * 2) (i + 1) m (by rw [hp]; ring) (by omega) hnm
      simpa [nextPow2Go, h] using this
    · simp only [nextPow2Go, if_neg h]
      rw [hp]
      exact Nat.pow_le_pow_right (by norm_num) him

theorem le_nextPow2 (n : Nat) : n ≤ nextPow2 n :=
  nextPow2Go_ge n n 1 (by simpa using Nat.le_of_lt (Nat.lt_two_pow n))

theorem nextPow2_isPow2 (n : Nat) : ∃ k, nextPow2 n = 2 ^ k :=
  nextPow2Go_pow n n 1 0 rfl

theorem nextPow2_le_pow (n m : Nat) (h : n ≤ 2 ^ m) : nextPow2 n ≤ 2 ^ m :=
  nextPow2Go_le n n 1 0 m rfl (Nat.zero_le m) h

theorem nextPow2_pos (n : Nat) : 1 ≤ nextPow2 n := by
  obtain ⟨k, hk⟩ := nextPow2_isPow2 n
  rw [hk]
  exact Nat.one_le_two_pow

theorem ctzGo_two_pow : ∀ k fuel, k ≤ fuel → ctzGo fuel (2 ^ k) = k := by
  intro k
  induction k with
  | zero =>
    intro fuel hf
    cases fuel <;> simp [ctzGo]
  | succ k ih =>
    intro fuel hf
    match fuel, hf with
    | f + 1, hf =>
      have h2 : (2 : Nat) ^ (k + 1) % 2 = 0 := by
        rw [pow_succ]
        simp [Nat.mul_mod_left]
      have hne2 : (2 : Nat) ^ (k + 1) ≠ 0 := by positivity
      have hdiv : (2 : Nat) ^ (k + 1) / 2 = 2 ^ k := by
        rw [pow_succ]
        exact Nat.mul_div_cancel _ (by norm_num)
      have hih : ctzGo f (2 ^ k) = k := ih f (by omega)
      simp [ctzGo, h2, hne2, hdiv, hih]

theorem trailing_zeros_two_pow (k : Nat) : trailing_zeros (2 ^ k) = k :=
  ctzGo_two_pow k (2 ^ k) (Nat.le_of_lt (Nat.lt_two_pow k))

theorem round_up_bounds (n : Nat) :
    n ≤ round_up n ∧ round_up n % 16 = 0 ∧ round_up n < n + 16 := by
  simp only [round_up, MULTIPLE]
  omega

theorem round_up_min (n c : Nat) (hc : c % 16 = 0) (h : n ≤ c) : round_up n ≤ c := by
  simp only [round_up, MULTIPLE]
  omega

/-- Concrete shape of the default size-class map: 12 multiples classes
16..192, 13 power-of-two classes 256..2^20, plus the word class. -/
theorem defaultSizeClasses_eval :
    defaultSizeClasses =
      { small := { starting_size := 16, max_size := 192, numClasses := 12 }
        medium := { starting_size := 256, max_size := 1048576, numClasses := 13 } } := by
  decide

/-! Claim C1. -/

/-- Claim C1 counterexample: with the thread-local handle unavailable, the
public global::alloc routes a small request (8, well below the cutoff) to
large_alloc::alloc, not to a transient clone of the global instance as the
claim states. -/
theorem c1_counterexample :
    global_alloc_route false 8 = GlobalAllocRoute.largeDirect 8 ∧
      global_alloc_route false 8 ≠ GlobalAllocRoute.transientClone 8 := by
  decide

/-- Claim C1 (amended): when the thread-local handle is unavailable,
global::alloc falls through to the large-object path for every request size,
above or below the cutoff alike; the transient-clone fallback belongs to
with_local_or_clone (used by aligned_realloc and get_layout), not to alloc. -/
theorem c1_alloc_fallback_amended (size : Nat) :
    global_alloc_route false size = GlobalAllocRoute.largeDirect size ∧
      global_alloc_route true size = GlobalAllocRoute.localHandle size ∧
      with_local_or_clone_source false = HandleSource.freshClone := by
  simp [global_alloc_route, with_local_or_clone_source]

/-! Claim C2. -/

/-- Claim C2 counterexample: a mapping base that is SMALL_CUTOFF-aligned (as
the MmapSource guarantees) but not 2 MiB-aligned, namely base = 65536, puts
the header at align_down(user_ptr - 1, 2 MiB) = 2097152, which is not the
mapping's base address. -/
theorem c2_counterexample :
    (65536 : Nat) % ELFMALLOC_SMALL_CUTOFF = 0 ∧
      (large_alloc_model 1 65536).headerAddr ≠ (large_alloc_model 1 65536).header.base := by
  decide

/-- Claim C2 (amended): large_alloc::alloc computes
region_size = n + 2 MiB, maps ceil(region_size / SMALL_CUTOFF) units, returns
user_ptr = base + 2 MiB, and writes the header { tag = Large (DirectMap),
base, region_size } at align_down(user_ptr - 1, 2 MiB); that address always
lies inside [base, base + 2 MiB) and equals the mapping's base exactly when
the base happens to be 2 MiB-aligned (the mapping is only guaranteed
SMALL_CUTOFF alignment). -/
theorem c2_large_alloc_amended (n base : Nat) :
    (large_alloc_model n base).regionSize = n + ELFMALLOC_PAGE_SIZE ∧
      (large_alloc_model n base).nPages =
        ((large_alloc_model n base).regionSize + ELFMALLOC_SMALL_CUTOFF - 1) /
          ELFMALLOC_SMALL_CUTOFF ∧
      (large_alloc_model n base).userPtr = base + ELFMALLOC_PAGE_SIZE ∧
      (large_alloc_model n base).headerAddr =
        get_commitment_mut ((large_alloc_model n base).userPtr) ∧
      (large_alloc_model n base).header =
        { ty := AllocType.Large, base := base, region_size := n + ELFMALLOC_PAGE_SIZE } ∧
      base ≤ (large_alloc_model n base).headerAddr ∧
      (large_alloc_model n base).headerAddr < base + ELFMALLOC_PAGE_SIZE ∧
      (base % ELFMALLOC_PAGE_SIZE = 0 → (large_alloc_model n base).headerAddr = base) := by
  refine ⟨rfl, ?_, rfl, rfl, rfl, ?_, ?_, ?_⟩
  · simp only [large_alloc_model, ELFMALLOC_PAGE_SIZE, ELFMALLOC_SMALL_CUTOFF,
      ELFMALLOC_SMALL_PAGE_SIZE]
    omega
  · simp only [large_alloc_model, get_commitment_mut, round_to_page, ELFMALLOC_PAGE_SIZE]
    omega
  · simp only [large_alloc_model, get_commitment_mut, round_to_page, ELFMALLOC_PAGE_SIZE]
    omega
  · intro h
    simp only [large_alloc_model, get_commitment_mut, round_to_page, ELFMALLOC_PAGE_SIZE] at h ⊢
    omega

/-- Claim C2 witness for the amended theorem's conditional part: at the 2
MiB-aligned base 2097152 the header address is the base itself. -/
theorem c2_witness :
    (large_alloc_model 1 2097152).headerAddr = 2097152 :=
  (c2_large_alloc_amended 1 2097152).2.2.2.2.2.2.2 (by decide)

/-! Claim C3. -/

/-- Claim C3 counterexample: for the default parameters start = 8 and
n_classes = 25, init_conserve makes 26 constructor calls (not 25) and the call
sizes are not in increasing order (the final word-class call passes 8). -/
theorem c3_counterexample :
    ¬ ((TieredSizeClasses.initCallSizes 8 25).length = 25 ∧
        List.Pairwise (· < ·) (TieredSizeClasses.initCallSizes 8 25)) := by
  decide

/-- Claim C3 (amended): TieredSizeClasses::init_conserve calls the constructor
exactly n_classes + 1 times in the default configuration: the first n_classes
calls (all Multiples classes, then all PowersOfTwo classes) are in strictly
increasing size order, and the final extra call passes size 8 for the word
class. -/
theorem c3_init_calls_amended (start n_classes : Nat) :
    (TieredSizeClasses.initCallSizes start n_classes).length = n_classes + 1 ∧
      (TieredSizeClasses.initCallSizesHead start n_classes).length = n_classes ∧
      List.Pairwise (· < ·) (TieredSizeClasses.initCallSizesHead start n_classes) ∧
      (TieredSizeClasses.initCallSizes start n_classes).getLast? = some 8 := by
  have hmin : min (ELFMALLOC_SMALL_CUTOFF / MULTIPLE - start / MULTIPLE) (n_classes / 2) ≤
      n_classes := by
    have h1 := Nat.min_le_right (ELFMALLOC_SMALL_CUTOFF / MULTIPLE - start / MULTIPLE)
      (n_classes / 2)
    have h2 := Nat.div_le_self n_classes 2
    omega
  refine ⟨?_, ?_, ?_, ?_⟩
  · simp only [TieredSizeClasses.initCallSizes, TieredSizeClasses.initCallSizesHead,
      Multiples.initCallSizes, PowersOfTwo.initCallSizes, List.length_append,
      List.length_map, List.length_range, List.length_cons, List.length_nil]
    omega
  · simp only [TieredSizeClasses.initCallSizesHead, Multiples.initCallSizes,
      PowersOfTwo.initCallSizes, List.length_append, List.length_map, List.length_range]
    omega
  · simp only [TieredSizeClasses.initCallSizesHead]
    rw [List.pairwise_append]
    refine ⟨?_, ?_, ?_⟩
    · simp only [Multiples.initCallSizes]
      rw [List.pairwise_map]
      refine (List.pairwise_lt_range _).imp ?_
      intro a b hab
      simp only [MULTIPLE]
      omega
    · simp only [PowersOfTwo.initCallSizes]
      rw [List.pairwise_map]
      refine (List.pairwise_lt_range _).imp ?_
      intro a b hab
      have hpow : (2 : Nat) ^ a < 2 ^ b := Nat.pow_lt_pow_right (by norm_num) hab
      exact mul_lt_mul_of_pos_left hpow (nextPow2_pos _)
    · intro a ha b hb
      simp only [Multiples.initCallSizes, List.mem_map, List.mem_range] at ha
      obtain ⟨i, hi, rfl⟩ := ha
      simp only [PowersOfTwo.initCallSizes, List.mem_map, List.mem_range] at hb
      obtain ⟨j, hj, rfl⟩ := hb
      have h1 : round_up start + MULTIPLE * i ≤
          (Multiples.init start
            (min (ELFMALLOC_SMALL_CUTOFF / MULTIPLE - start / MULTIPLE) (n_classes / 2))).max_size := by
        simp only [Multiples.init, MULTIPLE] at hi ⊢
        omega
      have h2 := le_nextPow2
        ((Multiples.init start
          (min (ELFMALLOC_SMALL_CUTOFF / MULTIPLE - start / MULTIPLE) (n_classes / 2))).max_size + 1)
      have h3 : nextPow2
            ((Multiples.init start
              (min (ELFMALLOC_SMALL_CUTOFF / MULTIPLE - start / MULTIPLE) (n_classes / 2))).max_size + 1) ≤
          nextPow2
            ((Multiples.init start
              (min (ELFMALLOC_SMALL_CUTOFF / MULTIPLE - start / MULTIPLE) (n_classes / 2))).max_size + 1) *
            2 ^ j :=
        le_mul_of_one_le_right (Nat.zero_le _) Nat.one_le_two_pow
      omega
  · simp only [TieredSizeClasses.initCallSizes]
    exact List.getLast?_concat _

/-! Claim C4. -/

/-- Claim C4 counterexample: realloc with a null pointer, n = 4 and align = 8
allocates 4 bytes, but 4 rounded up to a multiple of 8 is 8, so the claim's
round_up_to_alignment description is wrong. -/
theorem c4_counterexample :
    realloc_decision (fun _ => (0, 0)) none 4 8 = ReallocAction.allocNew 4 ∧
      round_up_to_alignment 4 8 = 8 ∧
      realloc_decision (fun _ => (0, 0)) none 4 8 ≠
        ReallocAction.allocNew (round_up_to_alignment 4 8) := by
  decide

/-- Claim C4 (amended): realloc with a null pointer returns alloc(n) when the
requested alignment is at most the word size, and alloc(n.next_power_of_two())
when it is larger; the chosen size is never below n. -/
theorem c4_realloc_null_amended (layout_of : Nat → Nat × Nat) (n align : Nat) :
    realloc_decision layout_of none n align =
        ReallocAction.allocNew (if align ≤ WORD_SIZE then n else nextPow2 n) ∧
      n ≤ nextPow2 n :=
  ⟨rfl, le_nextPow2 n⟩

/-! Claim C7. -/

/-- Claim C7 counterexample: for a pointer whose layout is (8, 8), the request
realloc(p, 0, 8) satisfies old_align ≥ new_align and old_size ≥ n, yet the
code frees the pointer and returns null instead of returning p unchanged: the
n = 0 branch precedes the keep check. -/
theorem c7_counterexample :
    realloc_decision (fun _ => (8, 8)) (some 4096) 0 8 = ReallocAction.freeNull ∧
      realloc_decision (fun _ => (8, 8)) (some 4096) 0 8 ≠ ReallocAction.keep := by
  decide

/-- Claim C7 (amended): realloc(p, n, new_align) returns p unchanged whenever
old_align ≥ new_align, old_size ≥ n and n ≥ 1; in particular
realloc(p, old_size, old_align) with a positive layout size keeps p. -/
theorem c7_realloc_keep_amended (p new_size new_alignment : Nat)
    (layout_of : Nat → Nat × Nat) (h1 : 1 ≤ new_size)
    (h2 : new_alignment ≤ (layout_of p).2) (h3 : new_size ≤ (layout_of p).1) :
    realloc_decision layout_of (some p) new_size new_alignment = ReallocAction.keep := by
  simp only [realloc_decision]
  rw [if_neg (by omega), if_pos ⟨h2, h3⟩]

/-- Claim C7 witness: reallocating with the exact layout (8, 8) of the pointer
keeps it. -/
theorem c7_witness :
    realloc_decision (fun _ => (8, 8)) (some 4096) 8 8 = ReallocAction.keep :=
  c7_realloc_keep_amended 4096 8 8 (fun _ => (8, 8)) (by decide) (by decide) (by decide)

/-! Claim C8. -/

/-- Claim C8: large_alloc::free reads the header for the pointer; a header
with region_size = 0 and null base yields a no-op, and any other header yields
exactly an unmap of size region_size starting at base. -/
theorem c8_large_free_noop_or_unmap (headerAt : Nat → AllocInfo) (item : Nat) :
    (large_free headerAt item = LargeFreeAction.noop ↔
        (get_commitment headerAt item).1 = 0 ∧ (get_commitment headerAt item).2 = 0) ∧
      (large_free headerAt item = LargeFreeAction.noop ∨
        large_free headerAt item =
          LargeFreeAction.unmap (get_commitment headerAt item).2
            (get_commitment headerAt item).1) := by
  by_cases h : (get_commitment headerAt item).1 = 0 ∧ (get_commitment headerAt item).2 = 0
  · simp [large_free, h]
  · simp [large_free, h]

/-! Claim C10. -/

/-- Claim C10: the blanket ObjectAlloc implementation's alloc returns
Exhausted exactly when the underlying Alloc::alloc (called with the layout of
T) fails with AllocErr::Exhausted, returns the same pointer on success, and
panics exactly on AllocErr::Unsupported; dealloc forwards the pointer together
with T's layout. -/
theorem c10_blanket_object_alloc (t_layout : Layout)
    (underlying : Layout → Except AllocErr Nat) (x : Nat) :
    (blanket_alloc_impl t_layout underlying = ObjAllocResult.exhausted ↔
        ∃ r, underlying t_layout = Except.error (AllocErr.Exhausted r)) ∧
      (∀ p, blanket_alloc_impl t_layout underlying = ObjAllocResult.ok p ↔
        underlying t_layout = Except.ok p) ∧
      (blanket_alloc_impl t_layout underlying = ObjAllocResult.panicked ↔
        ∃ d, underlying t_layout = Except.error (AllocErr.Unsupported d)) ∧
      blanket_dealloc_impl t_layout x = (x, t_layout) := by
  rcases hu : underlying t_layout with e | ptr
  · rcases e with r | d
    · refine ⟨?_, ?_, ?_, rfl⟩
      · simp only [blanket_alloc_impl, blanket_alloc, hu]
        exact ⟨fun _ => ⟨r, rfl⟩, fun _ => trivial⟩
      · intro p
        simp [blanket_alloc_impl, blanket_alloc, hu]
      · simp [blanket_alloc_impl, blanket_alloc, hu]
    · refine ⟨?_, ?_, ?_, rfl⟩
      · simp [blanket_alloc_impl, blanket_alloc, hu]
      · intro p
        simp [blanket_alloc_impl, blanket_alloc, hu]
      · simp only [blanket_alloc_impl, blanket_alloc, hu]
        exact ⟨fun _ => ⟨d, rfl⟩, fun _ => trivial⟩
  · refine ⟨?_, ?_, ?_, rfl⟩
    · simp [blanket_alloc_impl, blanket_alloc, hu]
    · intro p
      simp [blanket_alloc_impl, blanket_alloc, hu]
    · simp [blanket_alloc_impl, blanket_alloc, hu]

/-! Claim C5. -/

/-- Claim C5: the free path's page-size computation and dispatch.  A pointer
not aligned to SMALL_CUTOFF gets page size 256 KiB with no tag inspection (the
result is the same under any tag assignment `tagAt2`); an aligned pointer
dispatches on the tag at align_down(p - 1, 2 MiB): SmallSlag (SmallSlab) gives
256 KiB, BigSlag (LargeSlab) gives 2 MiB, Large (DirectMap) routes to the
large-object free; slab pointers are freed into the cache for the object size
recorded in the slab found from align_down(p, page_size). -/
theorem c5_free_dispatch (tagAt tagAt2 : Nat → AllocType) (objectSizeAt : Nat → Nat)
    (item : Nat) (_h : 0 < item) :
    (item % ELFMALLOC_SMALL_CUTOFF ≠ 0 →
      get_page_size tagAt item = some ELFMALLOC_SMALL_PAGE_SIZE ∧
        get_page_size tagAt2 item = get_page_size tagAt item ∧
        elf_free tagAt objectSizeAt item =
          FreeAction.cacheFree (objectSizeAt (slag_find item ELFMALLOC_SMALL_PAGE_SIZE))) ∧
    (item % ELFMALLOC_SMALL_CUTOFF = 0 →
      (get_type tagAt item = AllocType.SmallSlag →
        get_page_size tagAt item = some ELFMALLOC_SMALL_PAGE_SIZE ∧
          elf_free tagAt objectSizeAt item =
            FreeAction.cacheFree (objectSizeAt (slag_find item ELFMALLOC_SMALL_PAGE_SIZE))) ∧
      (get_type tagAt item = AllocType.BigSlag →
        get_page_size tagAt item = some ELFMALLOC_PAGE_SIZE ∧
          elf_free tagAt objectSizeAt item =
            FreeAction.cacheFree (objectSizeAt (slag_find item ELFMALLOC_PAGE_SIZE))) ∧
      (get_type tagAt item = AllocType.Large →
        elf_free tagAt objectSizeAt item = FreeAction.largeFree)) := by
  constructor
  · intro hne
    refine ⟨?_, ?_, ?_⟩ <;> simp [get_page_size, elf_free, hne]
  · intro hal
    refine ⟨?_, ?_, ?_⟩ <;> intro ht <;> simp [get_page_size, elf_free, hal, ht]

/-- Claim C5 witness: the unaligned pointer 24 is freed as a small-slab object
with page size 256 KiB regardless of the tag byte. -/
theorem c5_witness :
    get_page_size (fun _ => AllocType.SmallSlag) 24 = some ELFMALLOC_SMALL_PAGE_SIZE ∧
      get_page_size (fun _ => AllocType.Large) 24 =
        get_page_size (fun _ => AllocType.SmallSlag) 24 ∧
      elf_free (fun _ => AllocType.SmallSlag) (fun _ => 16) 24 =
        FreeAction.cacheFree ((fun _ : Nat => 16) (slag_find 24 ELFMALLOC_SMALL_PAGE_SIZE)) :=
  (c5_free_dispatch (fun _ => AllocType.SmallSlag) (fun _ => AllocType.Large)
    (fun _ => 16) 24 (by decide)).1 (by decide)

/-! Claims C6 and C9: the default size-class map. -/

theorem nextPow2_between (n : Nat) (h1 : 193 ≤ n) (h2 : n ≤ 1048576) :
    ∃ k, 8 ≤ k ∧ k ≤ 20 ∧ nextPow2 n = 2 ^ k := by
  obtain ⟨k, hk⟩ := nextPow2_isPow2 n
  have hge := le_nextPow2 n
  refine ⟨k, ?_, ?_, hk⟩
  · by_contra hc
    have h7 : k ≤ 7 := by omega
    have hle : (2 : Nat) ^ k ≤ 2 ^ 7 := Nat.pow_le_pow_right (by norm_num) h7
    have h128 : (2 : Nat) ^ 7 = 128 := by norm_num
    omega
  · have h20 : nextPow2 n ≤ 2 ^ 20 :=
      nextPow2_le_pow n 20 (le_trans h2 (by norm_num))
    by_contra hc
    have h21 : 21 ≤ k := by omega
    have hle : (2 : Nat) ^ 21 ≤ 2 ^ k := Nat.pow_le_pow_right (by norm_num) h21
    have e21 : (2 : Nat) ^ 21 = 2097152 := by norm_num
    have e20 : (2 : Nat) ^ 20 = 1048576 := by norm_num
    omega

/-- Claim C6: on the default map (word class present, start 8, 25 classes),
get for any 1 ≤ n ≤ max_key returns the smallest class at least n, through the
word class for n ≤ 8, through the multiples index
(round_up(n) - starting_size) / 16 for n up to the multiples maximum, and
through the power-of-two class of size next_pow2(n) above that. -/
theorem c6_get_smallest_class (n : Nat) (h1 : 1 ≤ n) (h2 : n ≤ defaultSizeClasses.max_key) :
    SmallestClassSpec defaultSizeClasses n
        (defaultSizeClasses.classSizeOf (defaultSizeClasses.get_raw n)) ∧
      (n ≤ 8 → defaultSizeClasses.get_raw n = ClassRef.word) ∧
      (8 < n → n ≤ defaultSizeClasses.small.max_size →
        defaultSizeClasses.get_raw n =
          ClassRef.small ((round_up n - defaultSizeClasses.small.starting_size) / MULTIPLE)) ∧
      (defaultSizeClasses.small.max_size < n →
        defaultSizeClasses.get_raw n =
            ClassRef.medium (defaultSizeClasses.medium.get_raw_index n) ∧
          defaultSizeClasses.classSizeOf (defaultSizeClasses.get_raw n) = nextPow2 n) := by
  have h2' : n ≤ 1048576 := by
    simpa [defaultSizeClasses_eval, TieredSizeClasses.max_key] using h2
  by_cases h8 : n ≤ 8
  · have hg : defaultSizeClasses.get_raw n = ClassRef.word := by
      simp [defaultSizeClasses_eval, TieredSizeClasses.get_raw, h8]
    refine ⟨?_, fun _ => hg, fun hlt => absurd hlt (by omega), ?_⟩
    · simp only [SmallestClassSpec]
      rw [hg]
      simp only [TieredSizeClasses.classSizeOf]
      refine ⟨Or.inl rfl, h8, ?_⟩
      intro c hc hnc
      simp only [TieredSizeClasses.isClassSize, defaultSizeClasses_eval,
        Multiples.classSize, PowersOfTwo.classSize, MULTIPLE] at hc
      rcases hc with rfl | ⟨i, hi, rfl⟩ | ⟨i, hi, rfl⟩
      · omega
      · omega
      · have hp : 1 ≤ 2 ^ i := Nat.one_le_two_pow
        omega
    · intro hlt
      exact absurd (show 192 < n from by
        simpa [defaultSizeClasses_eval] using hlt) (by omega)
  · by_cases h192 : n ≤ 192
    · have h9 : 9 ≤ n := by omega
      have hru : round_up n = (n + 15) / 16 * 16 := by simp [round_up, MULTIPLE]
      have hg : defaultSizeClasses.get_raw n = ClassRef.small ((round_up n - 16) / 16) := by
        simp [defaultSizeClasses_eval, TieredSizeClasses.get_raw, Multiples.get_raw_index,
          MULTIPLE, h8, h192]
      refine ⟨?_, fun hle => absurd hle h8, ?_, ?_⟩
      · simp only [SmallestClassSpec]
        rw [hg]
        simp only [TieredSizeClasses.classSizeOf, defaultSizeClasses_eval, Multiples.classSize,
          MULTIPLE]
        refine ⟨?_, ?_, ?_⟩
        · simp only [TieredSizeClasses.isClassSize, defaultSizeClasses_eval,
            Multiples.classSize, PowersOfTwo.classSize, MULTIPLE]
          exact Or.inr (Or.inl ⟨(round_up n - 16) / 16, by omega, by omega⟩)
        · omega
        · intro c hc hnc
          simp only [TieredSizeClasses.isClassSize, defaultSizeClasses_eval,
            Multiples.classSize, PowersOfTwo.classSize, MULTIPLE] at hc
          rcases hc with rfl | ⟨i, hi, rfl⟩ | ⟨i, hi, rfl⟩
          · omega
          · omega
          · have hp : 1 ≤ 2 ^ i := Nat.one_le_two_pow
            omega
      · intro _ _
        rw [hg]
        simp [defaultSizeClasses_eval, MULTIPLE]
      · intro hlt
        exact absurd (show 192 < n from by
          simpa [defaultSizeClasses_eval] using hlt) (by omega)
    · have h193 : 193 ≤ n := by omega
      obtain ⟨k, hk8, hk20, hk⟩ := nextPow2_between n h193 h2'
      have htz : trailing_zeros (nextPow2 n) = k := by
        rw [hk]
        exact trailing_zeros_two_pow k
      have htz256 : trailing_zeros 256 = 8 := by decide
      have hg : defaultSizeClasses.get_raw n = ClassRef.medium (k - 8) := by
        simp [defaultSizeClasses_eval, TieredSizeClasses.get_raw, PowersOfTwo.get_raw_index,
          htz, htz256, h8, h192]
      have hs : (256 : Nat) * 2 ^ (k - 8) = 2 ^ k := by
        have h256 : (256 : Nat) = 2 ^ 8 := by norm_num
        rw [h256, ← pow_add]
        congr 1
        omega
      refine ⟨?_, fun hle => absurd hle h8, ?_, ?_⟩
      · simp only [SmallestClassSpec]
        rw [hg]
        simp only [TieredSizeClasses.classSizeOf, defaultSizeClasses_eval,
          PowersOfTwo.classSize]
        refine ⟨?_, ?_, ?_⟩
        · simp only [TieredSizeClasses.isClassSize, defaultSizeClasses_eval,
            Multiples.classSize, PowersOfTwo.classSize]
          exact Or.inr (Or.inr ⟨k - 8, by omega, rfl⟩)
        · calc n ≤ nextPow2 n := le_nextPow2 n
            _ = 2 ^ k := hk
            _ = 256 * 2 ^ (k - 8) := hs.symm
        · intro c hc hnc
          simp only [TieredSizeClasses.isClassSize, defaultSizeClasses_eval,
            Multiples.classSize, PowersOfTwo.classSize, MULTIPLE] at hc
          rcases hc with rfl | ⟨i, hi, rfl⟩ | ⟨i, hi, rfl⟩
          · omega
          · omega
          · have hci : (256 : Nat) * 2 ^ i = 2 ^ (8 + i) := by
              have h256 : (256 : Nat) = 2 ^ 8 := by norm_num
              rw [h256, ← pow_add]
            have hmin : nextPow2 n ≤ 2 ^ (8 + i) :=
              nextPow2_le_pow n (8 + i) (by rw [← hci]; exact hnc)
            rw [hs, ← hk, hci]
            exact hmin
      · intro _ hle
        exact absurd (show n ≤ 192 from by
          simpa [defaultSizeClasses_eval] using hle) h192
      · intro _
        constructor
        · rw [hg]
          simp [defaultSizeClasses_eval, PowersOfTwo.get_raw_index, htz, htz256]
        · rw [hg]
          simp only [TieredSizeClasses.classSizeOf, defaultSizeClasses_eval,
            PowersOfTwo.classSize]
          rw [hs]
          exact hk.symm

/-- Claim C6 witness: at n = 100 the lookup selects the 112-byte multiples
class, the smallest class at least 100. -/
theorem c6_witness :
    SmallestClassSpec defaultSizeClasses 100
        (defaultSizeClasses.classSizeOf (defaultSizeClasses.get_raw 100)) ∧
      ((100 : Nat) ≤ 8 → defaultSizeClasses.get_raw 100 = ClassRef.word) ∧
      ((8 : Nat) < 100 → (100 : Nat) ≤ defaultSizeClasses.small.max_size →
        defaultSizeClasses.get_raw 100 =
          ClassRef.small ((round_up 100 - defaultSizeClasses.small.starting_size) / MULTIPLE)) ∧
      (defaultSizeClasses.small.max_size < 100 →
        defaultSizeClasses.get_raw 100 =
            ClassRef.medium (defaultSizeClasses.medium.get_raw_index 100) ∧
          defaultSizeClasses.classSizeOf (defaultSizeClasses.get_raw 100) = nextPow2 100) :=
  c6_get_smallest_class 100 (by decide) (by decide)

/-- Claim C9: on the default map every lookup with n ≤ max_key stays in
bounds: n ≤ 8 (including 0) is absorbed by the word class, the multiples index
neither underflows (starting_size ≤ round_up n) nor reaches the array length
12, and the medium index neither underflows (its log base 8 = log2(256) is at
most log2(next_pow2 n)) nor reaches the array length 13. -/
theorem c9_index_bounds (n : Nat) (h : n ≤ defaultSizeClasses.max_key) :
    (n ≤ 8 → defaultSizeClasses.get_raw n = ClassRef.word) ∧
      (8 < n → n ≤ defaultSizeClasses.small.max_size →
        defaultSizeClasses.small.starting_size ≤ round_up n ∧
          defaultSizeClasses.small.get_raw_index n < defaultSizeClasses.small.numClasses) ∧
      (defaultSizeClasses.small.max_size < n →
        trailing_zeros defaultSizeClasses.medium.starting_size ≤
            trailing_zeros (nextPow2 n) ∧
          defaultSizeClasses.medium.get_raw_index n < defaultSizeClasses.medium.numClasses) := by
  have h2' : n ≤ 1048576 := by
    simpa [defaultSizeClasses_eval, TieredSizeClasses.max_key] using h
  refine ⟨?_, ?_, ?_⟩
  · intro h8
    simp [defaultSizeClasses_eval, TieredSizeClasses.get_raw, h8]
  · intro h8 hle
    have h192 : n ≤ 192 := by simpa [defaultSizeClasses_eval] using hle
    have hru : round_up n = (n + 15) / 16 * 16 := by simp [round_up, MULTIPLE]
    simp only [defaultSizeClasses_eval, Multiples.get_raw_index, MULTIPLE]
    constructor
    · omega
    · omega
  · intro hlt
    have h193 : 193 ≤ n := by
      have := show 192 < n from by simpa [defaultSizeClasses_eval] using hlt
      omega
    obtain ⟨k, hk8, hk20, hk⟩ := nextPow2_between n h193 h2'
    have htz : trailing_zeros (nextPow2 n) = k := by
      rw [hk]
      exact trailing_zeros_two_pow k
    have htz256 : trailing_zeros 256 = 8 := by decide
    simp only [defaultSizeClasses_eval, PowersOfTwo.get_raw_index, htz, htz256]
    omega

/-- Claim C9 witness: the edge lookup n = 0 is absorbed by the word class. -/
theorem c9_witness :
    ((0 : Nat) ≤ 8 → defaultSizeClasses.get_raw 0 = ClassRef.word) ∧
      ((8 : Nat) < 0 → (0 : Nat) ≤ defaultSizeClasses.small.max_size →
        defaultSizeClasses.small.starting_size ≤ round_up 0 ∧
          defaultSizeClasses.small.get_raw_index 0 < defaultSizeClasses.small.numClasses) ∧
      (defaultSizeClasses.small.max_size < 0 →
        trailing_zeros defaultSizeClasses.medium.starting_size ≤
            trailing_zeros (nextPow2 0) ∧
          defaultSizeClasses.medium.get_raw_index 0 < defaultSizeClasses.medium.numClasses) :=
  c9_index_bounds 0 (by decide)
